import Mathlib

/-!
Shallow embedding of the `handler` package of Spongebob959/easyhandler
(src/easyhandler.go, `package handler` version): the `Result` sum type,
`FunctionHandlerImpl` with its configuration setters, `retryFunction`,
`WrapFunction`, `WrapErrorHandler` and `Try`.

Modelling conventions:
* Go `error` values are embedded as `Option String` (the message); `none` is
  the nil error.
* Go `any` values are embedded as `GoVal` (enough constructors for the
  observable behaviour: the untyped nil and a few base values).
* An operation thunk `func() Result[any]` may be a stateful closure, so it is
  embedded as `Nat → Result GoVal`, the result of its i-th invocation.
* The timeout race in `Try` (`select` on the result channel vs `ctx.Done()`)
  is scheduler nondeterminism; each operation carries a boolean `fired`
  recording whether the deadline fired before the retrying invocation
  completed.  `fired` is only consulted when `timeout > 0`, exactly as in the
  source.
* The channel-arrival order of the parallel branch is nondeterministic; `Try`
  takes it as an explicit `arrival : List Nat` (indices into the operation
  list), constrained to a permutation of all indices in theorems about
  parallel mode.
* `retryFunction` is instrumented with a trace (result, errors handed to
  `LogError`, number of `time.Sleep` calls, number of invocations of the
  thunk); `Try` additionally reports how many operations were invoked.
-/

namespace EasyHandler

/-- Embedding of Go `any` values appearing in results. -/
inductive GoVal where
  | null : GoVal
  | nat : Nat → GoVal
  | str : String → GoVal
deriving DecidableEq

/-- Go: `type Result[T any] struct { Values []T; Err error }`. -/
structure Result (T : Type) where
  values : List T
  err : Option String
deriving DecidableEq

/-- Go: `func Ok[T any](values ...T) Result[T] { return Result[T]{Values: values} }`. -/
def Ok {T : Type} (values : List T) : Result T :=
  { values := values, err := none }

/-- Go: `func Err[T any](err error) Result[T] { return Result[T]{Err: err} }`
(the `Values` field keeps its zero value, the nil slice). -/
def Err {T : Type} (e : String) : Result T :=
  { values := [], err := some e }

/-- Go: `func (r *Result[T]) IsOk() bool { return r.Err == nil }`. -/
def Result.IsOk {T : Type} (r : Result T) : Bool :=
  r.err.isNone

/-- Go: `func (r *Result[T]) IsErr() bool { return r.Err != nil }`. -/
def Result.IsErr {T : Type} (r : Result T) : Bool :=
  !r.err.isNone

/-- Go: `type FunctionHandlerImpl struct { timeout time.Duration; retries int;
isParallel bool }`.  `time.Duration` is a tick count, embedded as `Nat`;
`retries` is a Go `int`, embedded as `Int` (it may be set negative). -/
structure FunctionHandlerImpl where
  timeout : Nat
  retries : Int
  isParallel : Bool

/-- Go: `func (fhi *FunctionHandlerImpl) SetTimeout(duration time.Duration)`. -/
def SetTimeout (fhi : FunctionHandlerImpl) (duration : Nat) : FunctionHandlerImpl :=
  { fhi with timeout := duration }

/-- Go: `func (fhi *FunctionHandlerImpl) SetRetry(retries int)`. -/
def SetRetry (fhi : FunctionHandlerImpl) (retries : Int) : FunctionHandlerImpl :=
  { fhi with retries := retries }

/-- Go: `func (fhi *FunctionHandlerImpl) SetParallel(isParallel bool)`. -/
def SetParallel (fhi : FunctionHandlerImpl) (isParallel : Bool) : FunctionHandlerImpl :=
  { fhi with isParallel := isParallel }

/-- Instrumented outcome of `retryFunction`: the returned `Result`, the errors
handed to `LogError` in order, the number of `time.Sleep` calls, and the
number of invocations of the thunk. -/
structure RetryTrace where
  res : Result GoVal
  logged : List String
  sleeps : Nat
  attempts : Nat
deriving DecidableEq

/-- Number of iterations of Go's `for i := 0; i <= fhi.retries; i++` loop:
zero when `retries` is negative, otherwise `retries + 1`. -/
def loopCount (retries : Int) : Nat :=
  if retries < 0 then 0 else (retries + 1).toNat

/-- Trace bookkeeping for one failed attempt with result `res`, followed by
the remaining iterations' trace `rest`: the attempt's error is handed to
`LogError` (`err.toList` — `LogError` ignores a nil error) and then
`time.Sleep(time.Second)` runs, before the rest of the loop. -/
def RetryTrace.afterFailure (res : Result GoVal) (rest : RetryTrace) : RetryTrace :=
  ⟨rest.res, res.err.toList ++ rest.logged, rest.sleeps + 1, rest.attempts + 1⟩

/-- The body of `retryFunction`'s loop: `fuel` iterations remain, `i` is the
current attempt index, `prev` is the value of the `res` variable from the
previous iteration (the zero `Result` before the first).  Each failed attempt
logs its error and is followed by `time.Sleep(time.Second)` — the source
sleeps unconditionally after a failure, also on the final iteration. -/
def retryLoop (fn : Nat → Result GoVal) (i : Nat) :
    Nat → Result GoVal → RetryTrace
  | 0, prev => ⟨prev, [], 0, 0⟩
  | fuel + 1, _ =>
    if (fn i).IsOk then ⟨fn i, [], 0, 1⟩
    else RetryTrace.afterFailure (fn i) (retryLoop fn (i + 1) fuel (fn i))

/-- Go: `func (fhi *FunctionHandlerImpl) retryFunction(fn func() Result[any]) Result[any]`.
The loop variable `res` starts at the zero `Result` (nil slice, nil error),
which is what is returned when the loop body never runs. -/
def retryFunction (fhi : FunctionHandlerImpl) (fn : Nat → Result GoVal) : RetryTrace :=
  retryLoop fn 0 (loopCount fhi.retries) ⟨[], none⟩

/-- One operation as `Try` sees it: the thunk (indexed by invocation number)
and the resolution of the timeout race — `fired = true` means the deadline
fired before the retrying invocation completed (consulted only when
`timeout > 0`). -/
structure Op where
  fn : Nat → Result GoVal
  fired : Bool

/-- The per-operation unit of work inside `Try`: when `timeout > 0`, race
`retryFunction` against the deadline (`select` on the result channel vs
`ctx.Done()`); if the deadline fires first the result is
`Err "function timed out"` and the thunk's eventual result is never read.
When `timeout <= 0`, call `retryFunction` synchronously. -/
def runOp (fhi : FunctionHandlerImpl) (op : Op) : Result GoVal :=
  if 0 < fhi.timeout then
    if op.fired then Err "function timed out"
    else (retryFunction fhi op.fn).res
  else (retryFunction fhi op.fn).res

/-- Reflection-visible shape of the user-supplied error handler, plus its
semantics: `isFunc` — the value is a function; `numIn` / `inIsError` — the
parameter count and whether parameter 0 is exactly the `error` type;
`numOut` / `outIsError` — the return count and whether return 0 implements
`error`; `call` — what the handler returns (as an optional error) when
invoked with a given error message. -/
structure GoHandler where
  isFunc : Bool
  numIn : Nat
  inIsError : Bool
  numOut : Nat
  outIsError : Bool
  call : String → Option String

/-- Go: `func (fhi *FunctionHandlerImpl) WrapErrorHandler(handlerFunc interface{}) Result[HandlerValues]`. -/
def WrapErrorHandler (h : GoHandler) : Result GoHandler :=
  if !h.isFunc then Err "provided handler is not a function"
  else if h.numIn ≠ 1 || !h.inIsError then Err "the error handler must take an error as an arg"
  else if h.numOut > 1 || (h.numOut == 1 && !h.outIsError) then
    Err "the error handler must return at most one error"
  else Ok [h]

/-- How `Try` interprets a handler invocation on a failure: the call is fatal
only when the handler has exactly one return (`len(handlerResults) == 1`) and
that return is a non-nil error. -/
def GoHandler.route (h : GoHandler) (e : String) : Option String :=
  if h.numOut == 1 then h.call e else none

/-- Reflection-visible shape and semantics of a callable given to
`WrapFunction`: `outs args` are the (non-error) return values and
`errOut args` the trailing error-typed return (when `lastOutIsError`). -/
structure GoFunc where
  isFunc : Bool
  numIn : Nat
  numOut : Nat
  lastOutIsError : Bool
  outs : List GoVal → List GoVal
  errOut : List GoVal → Option String

/-- Go: `func (fhi *FunctionHandlerImpl) WrapFunction(function interface{}, args ...interface{}) func() Result[any]`.
All validation happens inside the returned closure, at invocation time. -/
def WrapFunction (f : GoFunc) (args : List GoVal) : Nat → Result GoVal := fun _ =>
  if !f.isFunc then Err "no function provided"
  else if args.length ≠ f.numIn then
    Err "argument count does not match function's parameter count"
  else if f.numOut == 0 then Ok []
  else if f.lastOutIsError then
    match f.errOut args with
    | some e => Err e
    | none => Ok (f.outs args)
  else Ok (f.outs args)

/-- The sequential branch of `Try`: iterate the operations in order,
accumulating `results` and the count of operations invoked; a failure is
routed to the handler, and a fatal handler return aborts with
`(nil, Err fatal)` immediately. -/
def trySeqLoop (fhi : FunctionHandlerImpl) (h : GoHandler) :
    List Op → List GoVal → Nat → Option (List GoVal) × Result GoVal × Nat
  | [], acc, count => (some acc, Ok [GoVal.null], count)
  | op :: rest, acc, count =>
    let res := runOp fhi op
    match res.err with
    | some e =>
      match h.route e with
      | some fatal => (none, Err fatal, count + 1)
      | none => trySeqLoop fhi h rest acc (count + 1)
    | none => trySeqLoop fhi h rest (acc ++ res.values) (count + 1)

/-- The fold of the parallel branch of `Try` over the results read from the
result channel, in arrival order: same body as the sequential loop, and a
fatal handler return stops reading and returns `(nil, Err fatal)`. -/
def tryFold (h : GoHandler) :
    List (Result GoVal) → List GoVal → Option (List GoVal) × Result GoVal
  | [], acc => (some acc, Ok [GoVal.null])
  | r :: rest, acc =>
    match r.err with
    | some e =>
      match h.route e with
      | some fatal => (none, Err fatal)
      | none => tryFold h rest acc
    | none => tryFold h rest (acc ++ r.values)

/-- Go: `func (fhi *FunctionHandlerImpl) Try(handler interface{}, funcs ...func() Result[any]) ([]any, Result[any])`,
instrumented with the number of operations invoked (third component).  The
handler is validated first (`invalid error handler`), then the batch is
checked non-empty (`no functions provided`); in parallel mode every operation
runs to a result before the fold over the channel-arrival order `arrival`;
on completion the batch outcome is `Ok[any](nil)` — a success carrying the
single value nil. -/
def Try (fhi : FunctionHandlerImpl) (handler : GoHandler) (arrival : List Nat)
    (funcs : List Op) : Option (List GoVal) × Result GoVal × Nat :=
  if (WrapErrorHandler handler).IsErr then (none, Err "invalid error handler", 0)
  else if funcs.length == 0 then (none, Err "no functions provided", 0)
  else if fhi.isParallel then
    let rs := arrival.filterMap fun i => (funcs[i]?).map (runOp fhi)
    let p := tryFold handler rs []
    (p.1, p.2, funcs.length)
  else trySeqLoop fhi handler funcs [] 0

/-- The values an operation's final outcome contributes to the aggregate:
its values on success, nothing on failure. -/
def successValues (r : Result GoVal) : List GoVal :=
  match r.err with
  | some _ => []
  | none => r.values

/-- An operation result that does not abort the batch: either a success, or a
failure for which the handler's routing returns no fatal error. -/
def handledRes (h : GoHandler) (r : Result GoVal) : Bool :=
  match r.err with
  | some e => h.route e == none
  | none => true

/-- A well-shaped handler (one `error` parameter, one `error` return) that
always returns nil: every failure is handled. -/
def validHandler : GoHandler :=
  ⟨true, 1, true, 1, true, fun _ => none⟩

/-- A well-shaped handler that echoes every error back: every failure is
fatal. -/
def fatalHandler : GoHandler :=
  ⟨true, 1, true, 1, true, fun e => some e⟩

/-- A malformed handler: not a function at all. -/
def badHandler : GoHandler :=
  ⟨false, 0, false, 0, false, fun _ => none⟩

/-- A malformed `WrapFunction` input: the callable is not a function. -/
def badFunc : GoFunc :=
  ⟨false, 0, 0, false, fun _ => [], fun _ => none⟩

/-- An operation that succeeds immediately with the single value 7. -/
def okOp : Op :=
  ⟨fun _ => Ok [GoVal.nat 7], false⟩

/-- An operation that succeeds immediately with the two values 8 and 9. -/
def okOp2 : Op :=
  ⟨fun _ => Ok [GoVal.nat 8, GoVal.nat 9], false⟩

/-- An operation that fails every attempt. -/
def failOp : Op :=
  ⟨fun _ => Err "boom", false⟩

/-- A thunk that fails its first invocation and succeeds afterwards. -/
def altFn : Nat → Result GoVal := fun n =>
  if n == 0 then Err "first" else Ok [GoVal.nat 1]

/-! ## Lemmas about the retry loop -/

theorem retryLoop_zero (fn : Nat → Result GoVal) (i : Nat) (prev : Result GoVal) :
    retryLoop fn i 0 prev = ⟨prev, [], 0, 0⟩ := rfl

theorem retryLoop_succ (fn : Nat → Result GoVal) (i fuel : Nat) (prev : Result GoVal) :
    retryLoop fn i (fuel + 1) prev =
      if (fn i).IsOk then ⟨fn i, [], 0, 1⟩
      else RetryTrace.afterFailure (fn i) (retryLoop fn (i + 1) fuel (fn i)) := rfl

theorem isOk_eq_false_of_isErr {T : Type} {r : Result T} (h : r.IsErr = true) :
    r.IsOk = false := by
  cases hr : r.err with
  | none => simp [Result.IsErr, hr] at h
  | some e => simp [Result.IsOk, hr]

theorem err_eq_none_of_isOk {T : Type} {r : Result T} (h : r.IsOk = true) :
    r.err = none := by
  cases hr : r.err with
  | none => rfl
  | some e => simp [Result.IsOk, hr] at h

theorem retryLoop_attempts_le (fn : Nat → Result GoVal) :
    ∀ (n i : Nat) (prev : Result GoVal), (retryLoop fn i n prev).attempts ≤ n := by
  intro n
  induction n with
  | zero => intro i prev; simp [retryLoop_zero]
  | succ m ih =>
    intro i prev
    rw [retryLoop_succ]
    split
    · simp
    · simpa [RetryTrace.afterFailure] using ih (i + 1) (fn i)

theorem retryLoop_attempts_pos (fn : Nat → Result GoVal) (n i : Nat)
    (prev : Result GoVal) (hn : 1 ≤ n) :
    1 ≤ (retryLoop fn i n prev).attempts := by
  cases n with
  | zero => omega
  | succ m =>
    rw [retryLoop_succ]
    split
    · simp
    · simp [RetryTrace.afterFailure]

theorem retryLoop_first_ok (fn : Nat → Result GoVal) :
    ∀ (k n i : Nat) (prev : Result GoVal), k < n →
      (∀ j, j < k → (fn (i + j)).IsErr = true) → (fn (i + k)).IsOk = true →
      (retryLoop fn i n prev).res = fn (i + k) ∧
        (retryLoop fn i n prev).attempts = k + 1 := by
  intro k
  induction k with
  | zero =>
    intro n i prev hk _ hok
    cases n with
    | zero => omega
    | succ m =>
      rw [retryLoop_succ]
      rw [Nat.add_zero] at hok
      rw [if_pos hok]
      simp [Nat.add_zero]
  | succ k ih =>
    intro n i prev hk herr hok
    cases n with
    | zero => omega
    | succ m =>
      have h0 : (fn i).IsErr = true := by
        have := herr 0 (by omega)
        rwa [Nat.add_zero] at this
      rw [retryLoop_succ, if_neg (by simp [isOk_eq_false_of_isErr h0])]
      have herr' : ∀ j, j < k → (fn (i + 1 + j)).IsErr = true := by
        intro j hj
        have := herr (j + 1) (by omega)
        rwa [show i + (j + 1) = i + 1 + j by omega] at this
      have hok' : (fn (i + 1 + k)).IsOk = true := by
        rwa [show i + (k + 1) = i + 1 + k by omega] at hok
      have := ih m (i + 1) (fn i) (by omega) herr' hok'
      refine ⟨?_, ?_⟩
      · rw [RetryTrace.afterFailure, this.1, show i + 1 + k = i + (k + 1) by omega]
      · rw [RetryTrace.afterFailure]
        simp [this.2]

theorem retryLoop_all_err (fn : Nat → Result GoVal) :
    ∀ (n i : Nat) (prev : Result GoVal), 1 ≤ n →
      (∀ j, j < n → (fn (i + j)).IsErr = true) →
      (retryLoop fn i n prev).res = fn (i + (n - 1)) ∧
        (retryLoop fn i n prev).attempts = n := by
  intro n
  induction n with
  | zero => intro i prev hn; omega
  | succ m ih =>
    intro i prev _ herr
    have h0 : (fn i).IsErr = true := by
      have := herr 0 (by omega)
      rwa [Nat.add_zero] at this
    rw [retryLoop_succ, if_neg (by simp [isOk_eq_false_of_isErr h0])]
    cases m with
    | zero =>
      rw [RetryTrace.afterFailure, retryLoop_zero]
      simp
    | succ l =>
      have herr' : ∀ j, j < l + 1 → (fn (i + 1 + j)).IsErr = true := by
        intro j hj
        have := herr (j + 1) (by omega)
        rwa [show i + (j + 1) = i + 1 + j by omega] at this
      have := ih (i + 1) (fn i) (by omega) herr'
      refine ⟨?_, ?_⟩
      · rw [RetryTrace.afterFailure, this.1,
          show i + 1 + (l + 1 - 1) = i + (l + 1 + 1 - 1) by omega]
      · rw [RetryTrace.afterFailure]
        simp [this.2]

theorem retryLoop_logged_sleeps (fn : Nat → Result GoVal) :
    ∀ (n i : Nat) (prev : Result GoVal),
      (retryLoop fn i n prev).logged =
        ((List.range (retryLoop fn i n prev).attempts).map
          (fun k => fn (i + k))).filterMap Result.err ∧
      (retryLoop fn i n prev).sleeps = (retryLoop fn i n prev).logged.length := by
  intro n
  induction n with
  | zero => intro i prev; simp [retryLoop_zero]
  | succ m ih =>
    intro i prev
    rw [retryLoop_succ]
    by_cases hok : (fn i).IsOk = true
    · rw [if_pos hok]
      simp [List.range_succ_eq_map, err_eq_none_of_isOk hok]
    · rw [if_neg hok]
      have hex : ∃ e, (fn i).err = some e := by
        cases hr : (fn i).err with
        | none => simp [Result.IsOk, hr] at hok
        | some e => exact ⟨e, rfl⟩
      obtain ⟨e, he⟩ := hex
      have hrest := ih (i + 1) (fn i)
      refine ⟨?_, ?_⟩
      · rw [RetryTrace.afterFailure]
        simp only [List.range_succ_eq_map, List.map_cons, List.map_map,
          List.filterMap_cons, Nat.add_zero, he, Option.toList_some,
          List.singleton_append]
        have hm : List.map ((fun k => fn (i + k)) ∘ Nat.succ)
            (List.range (retryLoop fn (i + 1) m (fn i)).attempts) =
            List.map (fun k => fn (i + 1 + k))
              (List.range (retryLoop fn (i + 1) m (fn i)).attempts) := by
          refine List.map_congr_left ?_
          intro a _
          simp only [Function.comp_apply]
          rw [show i + Nat.succ a = i + 1 + a by omega]
        rw [hm, ← hrest.1]
      · rw [RetryTrace.afterFailure]
        simp [hrest.2, he]

theorem loopCount_of_nonneg {r : Int} (h : 0 ≤ r) :
    loopCount r = r.toNat + 1 := by
  unfold loopCount
  split <;> omega

theorem loopCount_of_neg {r : Int} (h : r < 0) : loopCount r = 0 := by
  unfold loopCount
  split <;> omega

/-! ## Claim theorems about the retry loop -/

/-- C3: with a non-negative retry count `N`, `retryFunction` performs between
1 and `N + 1` invocations; if the first success is at attempt `k ≤ N` it
returns that attempt's outcome after exactly `k + 1` invocations (no further
attempts after a success); if all `N + 1` attempts fail it returns the
outcome of the last attempt (last-error-wins). -/
theorem retryFunction_bounds_first_success_last_error
    (fhi : FunctionHandlerImpl) (fn : Nat → Result GoVal) (h0 : 0 ≤ fhi.retries) :
    (1 ≤ (retryFunction fhi fn).attempts ∧
      (retryFunction fhi fn).attempts ≤ fhi.retries.toNat + 1) ∧
    (∀ k, k ≤ fhi.retries.toNat → (∀ j, j < k → (fn j).IsErr = true) →
      (fn k).IsOk = true →
      (retryFunction fhi fn).res = fn k ∧
        (retryFunction fhi fn).attempts = k + 1) ∧
    ((∀ j, j ≤ fhi.retries.toNat → (fn j).IsErr = true) →
      (retryFunction fhi fn).res = fn fhi.retries.toNat ∧
        (retryFunction fhi fn).attempts = fhi.retries.toNat + 1) := by
  unfold retryFunction
  rw [loopCount_of_nonneg h0]
  refine ⟨⟨retryLoop_attempts_pos fn _ 0 _ (by omega),
    retryLoop_attempts_le fn _ 0 _⟩, ?_, ?_⟩
  · intro k hk herr hok
    have := retryLoop_first_ok fn k (fhi.retries.toNat + 1) 0 ⟨[], none⟩
      (by omega) (by simpa using herr) (by simpa using hok)
    simpa using this
  · intro hall
    have := retryLoop_all_err fn (fhi.retries.toNat + 1) 0 ⟨[], none⟩ (by omega)
      (by intro j hj; simpa using hall j (by omega))
    simpa using this

/-- Witness for C3: with retries = 1 and a thunk failing only its first
invocation, `retryFunction` returns the second attempt's success after
exactly two invocations, within the bound 1 ≤ attempts ≤ 2. -/
theorem retryFunction_bounds_first_success_last_error_witness :
    (1 ≤ (retryFunction ⟨0, 1, false⟩ altFn).attempts ∧
      (retryFunction ⟨0, 1, false⟩ altFn).attempts ≤ 2) ∧
    ((retryFunction ⟨0, 1, false⟩ altFn).res = altFn 1 ∧
      (retryFunction ⟨0, 1, false⟩ altFn).attempts = 2) :=
  ⟨(retryFunction_bounds_first_success_last_error ⟨0, 1, false⟩ altFn (by decide)).1,
    (retryFunction_bounds_first_success_last_error ⟨0, 1, false⟩ altFn (by decide)).2.1
      1 (by decide) (by decide) (by decide)⟩

/-- C7 counterexample: with `retries = 0` and an always-failing thunk, the
single attempt is the last allowed attempt and it fails, yet one
`time.Sleep` call occurs — the claim mandates zero sleeps in this run. -/
theorem retry_sleep_after_last_cex :
    (retryFunction ⟨0, 0, false⟩ (fun _ => Err "boom")).attempts = 1 ∧
    (retryFunction ⟨0, 0, false⟩ (fun _ => Err "boom")).res.IsErr = true ∧
    ¬(retryFunction ⟨0, 0, false⟩ (fun _ => Err "boom")).sleeps = 0 := by
  decide

/-- C7 amended: in the retry loop every failed attempt's error is reported to
the logging collaborator, in attempt order, and a `time.Sleep` of the
inter-attempt delay follows every failed attempt — including the final
allowed attempt — while no sleep ever follows a successful attempt (the
sleep count equals the failed-attempt count). -/
theorem retry_logged_and_sleeps (fhi : FunctionHandlerImpl)
    (fn : Nat → Result GoVal) :
    (retryFunction fhi fn).logged =
      ((List.range (retryFunction fhi fn).attempts).map fn).filterMap Result.err ∧
    (retryFunction fhi fn).sleeps = (retryFunction fhi fn).logged.length := by
  have := retryLoop_logged_sleeps fn (loopCount fhi.retries) 0 ⟨[], none⟩
  simpa [retryFunction] using this

/-- C9: a `Result` built by `Ok` is a success carrying no error, a `Result`
built by `Err` is a failure carrying no values, and on every `Result` the
`IsOk` / `IsErr` queries are mutually exclusive and exhaustive. -/
theorem result_variant_invariants :
    (∀ (T : Type) (vs : List T), (Ok vs).IsOk = true ∧ (Ok vs).err = none) ∧
    (∀ (T : Type) (e : String),
      (Err e : Result T).IsErr = true ∧ (Err e : Result T).values = []) ∧
    (∀ (T : Type) (r : Result T),
      (r.IsOk = true ∨ r.IsErr = true) ∧ ¬(r.IsOk = true ∧ r.IsErr = true)) := by
  refine ⟨fun T vs => ⟨rfl, rfl⟩, fun T e => ⟨rfl, rfl⟩, fun T r => ?_⟩
  cases hr : r.err <;> simp [Result.IsOk, Result.IsErr, hr]

/-! ## Lemmas about the batch executor -/

theorem isErr_eq_false_of_isOk {T : Type} {r : Result T} (h : r.IsOk = true) :
    r.IsErr = false := by
  cases hr : r.err with
  | none => simp [Result.IsErr, hr]
  | some e => simp [Result.IsOk, hr] at h

theorem trySeqLoop_nil (fhi : FunctionHandlerImpl) (h : GoHandler)
    (acc : List GoVal) (count : Nat) :
    trySeqLoop fhi h [] acc count = (some acc, Ok [GoVal.null], count) := rfl

theorem trySeqLoop_cons (fhi : FunctionHandlerImpl) (h : GoHandler) (op : Op)
    (rest : List Op) (acc : List GoVal) (count : Nat) :
    trySeqLoop fhi h (op :: rest) acc count =
      match (runOp fhi op).err with
      | some e =>
        match h.route e with
        | some fatal => (none, Err fatal, count + 1)
        | none => trySeqLoop fhi h rest acc (count + 1)
      | none => trySeqLoop fhi h rest (acc ++ (runOp fhi op).values) (count + 1) := rfl

theorem tryFold_nil (h : GoHandler) (acc : List GoVal) :
    tryFold h [] acc = (some acc, Ok [GoVal.null]) := rfl

theorem tryFold_cons (h : GoHandler) (r : Result GoVal)
    (rest : List (Result GoVal)) (acc : List GoVal) :
    tryFold h (r :: rest) acc =
      match r.err with
      | some e =>
        match h.route e with
        | some fatal => (none, Err fatal)
        | none => tryFold h rest acc
      | none => tryFold h rest (acc ++ r.values) := rfl

theorem trySeqLoop_cons_ok (fhi : FunctionHandlerImpl) (h : GoHandler) (op : Op)
    (rest : List Op) (acc : List GoVal) (count : Nat)
    (he : (runOp fhi op).err = none) :
    trySeqLoop fhi h (op :: rest) acc count =
      trySeqLoop fhi h rest (acc ++ (runOp fhi op).values) (count + 1) := by
  rw [trySeqLoop_cons]
  simp only [he]

theorem trySeqLoop_cons_handled (fhi : FunctionHandlerImpl) (h : GoHandler)
    (op : Op) (rest : List Op) (acc : List GoVal) (count : Nat) (e : String)
    (he : (runOp fhi op).err = some e) (hr : h.route e = none) :
    trySeqLoop fhi h (op :: rest) acc count =
      trySeqLoop fhi h rest acc (count + 1) := by
  rw [trySeqLoop_cons]
  simp only [he, hr]

theorem trySeqLoop_cons_fatal (fhi : FunctionHandlerImpl) (h : GoHandler)
    (op : Op) (rest : List Op) (acc : List GoVal) (count : Nat)
    (e fatal : String) (he : (runOp fhi op).err = some e)
    (hr : h.route e = some fatal) :
    trySeqLoop fhi h (op :: rest) acc count = (none, Err fatal, count + 1) := by
  rw [trySeqLoop_cons]
  simp only [he, hr]

theorem tryFold_cons_ok (h : GoHandler) (r : Result GoVal)
    (rest : List (Result GoVal)) (acc : List GoVal) (he : r.err = none) :
    tryFold h (r :: rest) acc = tryFold h rest (acc ++ r.values) := by
  rw [tryFold_cons]
  simp only [he]

theorem tryFold_cons_handled (h : GoHandler) (r : Result GoVal)
    (rest : List (Result GoVal)) (acc : List GoVal) (e : String)
    (he : r.err = some e) (hr : h.route e = none) :
    tryFold h (r :: rest) acc = tryFold h rest acc := by
  rw [tryFold_cons]
  simp only [he, hr]

theorem tryFold_cons_fatal (h : GoHandler) (r : Result GoVal)
    (rest : List (Result GoVal)) (acc : List GoVal) (e fatal : String)
    (he : r.err = some e) (hr : h.route e = some fatal) :
    tryFold h (r :: rest) acc = (none, Err fatal) := by
  rw [tryFold_cons]
  simp only [he, hr]

theorem trySeqLoop_all_handled (fhi : FunctionHandlerImpl) (h : GoHandler) :
    ∀ (ops : List Op) (acc : List GoVal) (count : Nat),
      (∀ op ∈ ops, handledRes h (runOp fhi op) = true) →
      trySeqLoop fhi h ops acc count =
        (some (acc ++ (ops.map fun op => successValues (runOp fhi op)).flatten),
          Ok [GoVal.null], count + ops.length) := by
  intro ops
  induction ops with
  | nil => intro acc count _; simp [trySeqLoop_nil]
  | cons op rest ih =>
    intro acc count hall
    have hop := hall op (by simp)
    cases he : (runOp fhi op).err with
    | some e =>
      have hroute : h.route e = none := by
        simpa [handledRes, he] using hop
      rw [trySeqLoop_cons_handled fhi h op rest acc count e he hroute]
      rw [ih acc (count + 1) (fun p hp => hall p (by simp [hp]))]
      simp only [List.map_cons, List.flatten_cons, List.length_cons]
      rw [show successValues (runOp fhi op) = [] by simp [successValues, he]]
      refine congrArg₂ _ rfl (congrArg₂ _ rfl (by omega))
    | none =>
      rw [trySeqLoop_cons_ok fhi h op rest acc count he]
      rw [ih (acc ++ (runOp fhi op).values) (count + 1)
        (fun p hp => hall p (by simp [hp]))]
      simp only [List.map_cons, List.flatten_cons, List.length_cons]
      rw [show successValues (runOp fhi op) = (runOp fhi op).values by
        simp [successValues, he]]
      refine congrArg₂ _ ?_ (congrArg₂ _ rfl (by omega))
      simp [List.append_assoc]

theorem tryFold_all_handled (h : GoHandler) :
    ∀ (rs : List (Result GoVal)) (acc : List GoVal),
      (∀ r ∈ rs, handledRes h r = true) →
      tryFold h rs acc =
        (some (acc ++ (rs.map successValues).flatten), Ok [GoVal.null]) := by
  intro rs
  induction rs with
  | nil => intro acc _; simp [tryFold_nil]
  | cons r rest ih =>
    intro acc hall
    have hr := hall r (by simp)
    cases he : r.err with
    | some e =>
      have hroute : h.route e = none := by
        simpa [handledRes, he] using hr
      rw [tryFold_cons_handled h r rest acc e he hroute]
      rw [ih acc (fun p hp => hall p (by simp [hp]))]
      simp only [List.map_cons, List.flatten_cons]
      rw [show successValues r = [] by simp [successValues, he]]
      simp
    | none =>
      rw [tryFold_cons_ok h r rest acc he]
      rw [ih (acc ++ r.values) (fun p hp => hall p (by simp [hp]))]
      simp only [List.map_cons, List.flatten_cons]
      rw [show successValues r = r.values by simp [successValues, he]]
      simp [List.append_assoc]

theorem trySeqLoop_fatal (fhi : FunctionHandlerImpl) (h : GoHandler) (op : Op)
    (post : List Op) (e fatal : String) (hop : (runOp fhi op).err = some e)
    (hfatal : h.route e = some fatal) :
    ∀ (pre : List Op) (acc : List GoVal) (count : Nat),
      (∀ p ∈ pre, handledRes h (runOp fhi p) = true) →
      trySeqLoop fhi h (pre ++ op :: post) acc count =
        (none, Err fatal, count + pre.length + 1) := by
  intro pre
  induction pre with
  | nil =>
    intro acc count _
    rw [List.nil_append, trySeqLoop_cons_fatal fhi h op post acc count e fatal hop hfatal]
    simp
  | cons p pre' ih =>
    intro acc count hall
    have hp := hall p (by simp)
    rw [List.cons_append]
    cases he : (runOp fhi p).err with
    | some e' =>
      have hroute : h.route e' = none := by
        simpa [handledRes, he] using hp
      rw [trySeqLoop_cons_handled fhi h p (pre' ++ op :: post) acc count e' he hroute]
      rw [ih acc (count + 1) (fun q hq => hall q (by simp [hq]))]
      refine congrArg₂ _ rfl (congrArg₂ _ rfl ?_)
      simp only [List.length_cons]
      omega
    | none =>
      rw [trySeqLoop_cons_ok fhi h p (pre' ++ op :: post) acc count he]
      rw [ih (acc ++ (runOp fhi p).values) (count + 1)
        (fun q hq => hall q (by simp [hq]))]
      refine congrArg₂ _ rfl (congrArg₂ _ rfl ?_)
      simp only [List.length_cons]
      omega

theorem Try_seq (fhi : FunctionHandlerImpl) (handler : GoHandler)
    (arrival : List Nat) (funcs : List Op)
    (hh : (WrapErrorHandler handler).IsOk = true) (hne : funcs ≠ [])
    (hpar : fhi.isParallel = false) :
    Try fhi handler arrival funcs = trySeqLoop fhi handler funcs [] 0 := by
  unfold Try
  rw [isErr_eq_false_of_isOk hh, hpar]
  simp [List.length_eq_zero, hne]

theorem Try_par (fhi : FunctionHandlerImpl) (handler : GoHandler)
    (arrival : List Nat) (funcs : List Op)
    (hh : (WrapErrorHandler handler).IsOk = true) (hne : funcs ≠ [])
    (hpar : fhi.isParallel = true) :
    Try fhi handler arrival funcs =
      ((tryFold handler (arrival.filterMap fun i => (funcs[i]?).map (runOp fhi)) []).1,
        (tryFold handler (arrival.filterMap fun i => (funcs[i]?).map (runOp fhi)) []).2,
        funcs.length) := by
  unfold Try
  rw [isErr_eq_false_of_isOk hh, hpar]
  simp [List.length_eq_zero, hne]

theorem filterMap_range_get {β : Type} (g : Op → β) :
    ∀ (funcs : List Op),
      (List.range funcs.length).filterMap (fun i => (funcs[i]?).map g) =
        funcs.map g := by
  intro funcs
  induction funcs with
  | nil => simp
  | cons op rest ih =>
    rw [List.length_cons, List.range_succ_eq_map, List.filterMap_cons,
      List.filterMap_map]
    have hc : ((fun i => ((op :: rest)[i]?).map g) ∘ Nat.succ) =
        fun i => (rest[i]?).map g := by
      funext i
      simp
    simp only [List.getElem?_cons_zero, Option.map_some', hc, ih, List.map_cons]

theorem flatten_of_all_nil {α : Type} :
    ∀ (ls : List (List α)), (∀ l ∈ ls, l = []) → ls.flatten = [] := by
  intro ls
  induction ls with
  | nil => intro _; rfl
  | cons l rest ih =>
    intro hall
    rw [List.flatten_cons, hall l (by simp), ih (fun q hq => hall q (by simp [hq]))]
    rfl

theorem runOp_not_fired (fhi : FunctionHandlerImpl) (op : Op)
    (hf : op.fired = false) :
    runOp fhi op = (retryFunction fhi op.fn).res := by
  unfold runOp
  rw [hf]
  split <;> simp

theorem retryFunction_res_first_ok (fhi : FunctionHandlerImpl)
    (fn : Nat → Result GoVal) (hret : 0 ≤ fhi.retries)
    (hok : (fn 0).IsOk = true) :
    (retryFunction fhi fn).res = fn 0 := by
  unfold retryFunction
  rw [loopCount_of_nonneg hret]
  have := retryLoop_first_ok fn 0 (fhi.retries.toNat + 1) 0 ⟨[], none⟩ (by omega)
    (fun j hj => absurd hj (by omega)) (by simpa using hok)
  simpa using this.1

/-! ## Claim theorems about the batch executor -/

/-- C1: with parallel disabled, a valid handler, a non-negative retry count,
and no deadline firing, a non-empty batch in which every operation succeeds
on its first invocation yields an aggregate equal to the concatenation of
each operation's values in operation-list order, a Success batch outcome
(`Ok[any](nil)`), and every operation invoked. -/
theorem try_seq_all_first_success
    (fhi : FunctionHandlerImpl) (handler : GoHandler) (arrival : List Nat)
    (funcs : List Op) (hpar : fhi.isParallel = false)
    (hh : (WrapErrorHandler handler).IsOk = true) (hne : funcs ≠ [])
    (hret : 0 ≤ fhi.retries)
    (hfired : ∀ op ∈ funcs, op.fired = false)
    (hok : ∀ op ∈ funcs, (op.fn 0).IsOk = true) :
    Try fhi handler arrival funcs =
      (some ((funcs.map fun op => (op.fn 0).values).flatten),
        Ok [GoVal.null], funcs.length) := by
  have hrun : ∀ op ∈ funcs, runOp fhi op = op.fn 0 := by
    intro op hm
    rw [runOp_not_fired fhi op (hfired op hm),
      retryFunction_res_first_ok fhi op.fn hret (hok op hm)]
  rw [Try_seq fhi handler arrival funcs hh hne hpar]
  rw [trySeqLoop_all_handled fhi handler funcs [] 0 ?hall]
  case hall =>
    intro op hm
    rw [hrun op hm]
    simp [handledRes, err_eq_none_of_isOk (hok op hm)]
  have hmap : (funcs.map fun op => successValues (runOp fhi op)) =
      funcs.map fun op => (op.fn 0).values := by
    refine List.map_congr_left ?_
    intro op hm
    rw [hrun op hm]
    simp [successValues, err_eq_none_of_isOk (hok op hm)]
  rw [hmap]
  simp

/-- Witness for C1: two operations succeeding immediately with values
`[7]` and `[8, 9]` aggregate to `[7, 8, 9]` in list order with a Success
batch outcome. -/
theorem try_seq_all_first_success_witness :
    Try ⟨0, 0, false⟩ validHandler [] [okOp, okOp2] =
      (some [GoVal.nat 7, GoVal.nat 8, GoVal.nat 9], Ok [GoVal.null], 2) :=
  try_seq_all_first_success ⟨0, 0, false⟩ validHandler [] [okOp, okOp2] rfl
    (by decide) (by simp) (by decide) (by decide) (by decide)

/-- C2: in sequential mode, when all operations before index `j` are
successful or handled, operation `j`'s final outcome is a Failure, and the
handler routes it to a non-nil (fatal) error, `Try` returns a nil aggregate
and that fatal error as the batch outcome, having invoked exactly `j + 1`
operations — no operation after the failing one is invoked. -/
theorem try_seq_fatal_halts
    (fhi : FunctionHandlerImpl) (handler : GoHandler) (arrival : List Nat)
    (pre : List Op) (op : Op) (post : List Op) (e fatal : String)
    (hpar : fhi.isParallel = false)
    (hh : (WrapErrorHandler handler).IsOk = true)
    (hpre : ∀ p ∈ pre, handledRes handler (runOp fhi p) = true)
    (hop : (runOp fhi op).err = some e)
    (hfatal : handler.route e = some fatal) :
    Try fhi handler arrival (pre ++ op :: post) =
      (none, Err fatal, pre.length + 1) := by
  rw [Try_seq fhi handler arrival (pre ++ op :: post) hh (by simp) hpar]
  have := trySeqLoop_fatal fhi handler op post e fatal hop hfatal pre [] 0 hpre
  simpa using this

/-- Witness for C2: with a fatal-on-first-failure handler, a successful
operation, a failing operation and a trailing operation, `Try` aborts with
the handler's error, a nil aggregate, and only 2 of the 3 operations
invoked. -/
theorem try_seq_fatal_halts_witness :
    Try ⟨0, 0, false⟩ fatalHandler [] [okOp, failOp, okOp2] =
      (none, Err "boom", 2) :=
  try_seq_fatal_halts ⟨0, 0, false⟩ fatalHandler [] [okOp] failOp [okOp2]
    "boom" "boom" rfl (by decide) (by decide) (by decide) (by decide)

theorem wrapErrorHandler_isErr_iff (h : GoHandler) :
    (WrapErrorHandler h).IsErr = true ↔
      (h.isFunc = false ∨ h.numIn ≠ 1 ∨ h.inIsError = false ∨
        1 < h.numOut ∨ (h.numOut = 1 ∧ h.outIsError = false)) := by
  obtain ⟨isF, nIn, inE, nOut, outE, call⟩ := h
  unfold WrapErrorHandler
  dsimp only
  split
  · next hc =>
    have hF : isF = false := by revert hc; cases isF <;> simp
    simp [Result.IsErr, Err, hF]
  · next hc =>
    have hF : isF = true := by revert hc; cases isF <;> simp
    split
    · next hc2 =>
      have h2 : nIn ≠ 1 ∨ inE = false := by
        revert hc2; cases inE <;> simp
      simp only [Result.IsErr, Err, Option.isNone_some, Bool.not_false, true_iff]
      tauto
    · next hc2 =>
      have h2 : nIn = 1 ∧ inE = true := by
        revert hc2; cases inE <;> simp
      split
      · next hc3 =>
        have h3 : 1 < nOut ∨ (nOut = 1 ∧ outE = false) := by
          revert hc3; cases outE <;> simp
        simp only [Result.IsErr, Err, Option.isNone_some, Bool.not_false, true_iff]
        tauto
      · next hc3 =>
        have h3 : ¬(1 < nOut) ∧ ¬(nOut = 1 ∧ outE = false) := by
          revert hc3; cases outE <;> simp
        simp only [Result.IsErr, Ok, Option.isNone_none, Bool.not_true,
          Bool.false_eq_true, false_iff]
        rintro (hx | hx | hx | hx | hx)
        · rw [hF] at hx; exact absurd hx (by simp)
        · exact hx h2.1
        · rw [h2.2] at hx; exact absurd hx (by simp)
        · exact h3.1 hx
        · exact h3.2 hx

/-- C4 counterexample: with a valid handler and an empty operation list,
`Try` returns the pre-flight error message "no functions provided" — not
"no operations provided" as the claim states. -/
theorem try_empty_message_cex :
    Try ⟨0, 0, false⟩ validHandler [] [] =
      (none, Err "no functions provided", 0) ∧
    "no functions provided" ≠ "no operations provided" := by
  decide

/-- C4 amended: before any operation executes `Try` checks its
preconditions and aborts with a pre-flight Failure with zero operations
invoked: a malformed handler (not a function, wrong parameter shape, or
more than one error return — exactly the shapes `WrapErrorHandler`
rejects) yields the error "invalid error handler", and an empty operation
list (with a valid handler, which is checked first) yields the error
"no functions provided". -/
theorem try_preflight_errors (fhi : FunctionHandlerImpl) (handler : GoHandler)
    (arrival : List Nat) (funcs : List Op) :
    ((handler.isFunc = false ∨ handler.numIn ≠ 1 ∨ handler.inIsError = false ∨
        1 < handler.numOut ∨ (handler.numOut = 1 ∧ handler.outIsError = false)) →
      (WrapErrorHandler handler).IsErr = true) ∧
    ((WrapErrorHandler handler).IsErr = true →
      Try fhi handler arrival funcs = (none, Err "invalid error handler", 0)) ∧
    ((WrapErrorHandler handler).IsErr = false →
      Try fhi handler arrival [] = (none, Err "no functions provided", 0)) := by
  refine ⟨fun hmal => (wrapErrorHandler_isErr_iff handler).2 hmal, ?_, ?_⟩
  · intro hbad
    unfold Try
    rw [hbad]
    simp
  · intro hgood
    unfold Try
    rw [hgood]
    simp

/-- Witness for C4 amended: a handler that is not a function makes `Try`
abort pre-flight with "invalid error handler" and zero operations invoked. -/
theorem try_preflight_errors_witness :
    Try ⟨0, 0, false⟩ badHandler [] [okOp] =
      (none, Err "invalid error handler", 0) :=
  (try_preflight_errors ⟨0, 0, false⟩ badHandler [] [okOp]).2.1 (by decide)

/-- C5 counterexample: when the deadline fires first, the per-operation
outcome carries the error message "function timed out" — not
"operation timed out" as the claim states. -/
theorem timeout_message_cex :
    runOp ⟨5, 0, false⟩ ⟨fun _ => Ok [GoVal.nat 1], true⟩ =
      Err "function timed out" ∧
    "function timed out" ≠ "operation timed out" := by
  decide

/-- C5 amended: for every timeout greater than zero, when the deadline fires
before the retrying invocation completes, the per-operation outcome is
`Failure{"function timed out"}` — independent of the thunk, whose eventual
result is discarded — and this failure is routed to the error handler like
any other operation failure (continue if handled, abort with the handler's
error if fatal). -/
theorem timeout_failure_routed (fhi : FunctionHandlerImpl) (handler : GoHandler)
    (arrival : List Nat) (op : Op) (rest : List Op) (hto : 0 < fhi.timeout)
    (hfired : op.fired = true) (hpar : fhi.isParallel = false)
    (hh : (WrapErrorHandler handler).IsOk = true) :
    runOp fhi op = Err "function timed out" ∧
    (∀ fn fn' : Nat → Result GoVal,
      runOp fhi ⟨fn, true⟩ = runOp fhi ⟨fn', true⟩) ∧
    (handler.route "function timed out" = none →
      Try fhi handler arrival (op :: rest) = trySeqLoop fhi handler rest [] 1) ∧
    (∀ fatal, handler.route "function timed out" = some fatal →
      Try fhi handler arrival (op :: rest) = (none, Err fatal, 1)) := by
  have hrun : runOp fhi op = Err "function timed out" := by
    unfold runOp
    rw [if_pos hto, hfired]
    simp
  refine ⟨hrun, ?_, ?_, ?_⟩
  · intro fn fn'
    simp [runOp, hto]
  · intro hnone
    rw [Try_seq fhi handler arrival (op :: rest) hh (by simp) hpar]
    rw [trySeqLoop_cons_handled fhi handler op rest [] 0 "function timed out"
      (by rw [hrun]; rfl) hnone]
  · intro fatal hfatal
    rw [Try_seq fhi handler arrival (op :: rest) hh (by simp) hpar]
    rw [trySeqLoop_cons_fatal fhi handler op rest [] 0 "function timed out"
      fatal (by rw [hrun]; rfl) hfatal]

/-- Witness for C5 amended: with timeout 5, a timed-out operation whose
thunk would have succeeded is reported to the always-nil handler and the
batch continues, ending with an empty aggregate and a Success outcome. -/
theorem timeout_failure_routed_witness :
    Try ⟨5, 0, false⟩ validHandler [] [⟨fun _ => Ok [GoVal.nat 1], true⟩] =
      (some [], Ok [GoVal.null], 1) :=
  (timeout_failure_routed ⟨5, 0, false⟩ validHandler []
      ⟨fun _ => Ok [GoVal.nat 1], true⟩ [] (by decide) rfl rfl
      (by decide)).2.2.1 (by decide)

/-- C6: with a valid handler that always returns nil, a non-empty batch is
never aborted: every operation is invoked (the invocation count equals the
batch size), the batch outcome is Success, and the aggregate consists
exactly of the values of the operations whose final outcome was Success —
in operation-list order in sequential mode, and up to the nondeterministic
channel-arrival permutation in parallel mode. -/
theorem handled_handler_never_aborts (fhi : FunctionHandlerImpl)
    (handler : GoHandler) (arrival : List Nat) (funcs : List Op)
    (hh : (WrapErrorHandler handler).IsOk = true)
    (hnil : ∀ e, handler.call e = none) (hne : funcs ≠ [])
    (hperm : fhi.isParallel = true → arrival.Perm (List.range funcs.length)) :
    ∃ agg, Try fhi handler arrival funcs =
        (some agg, Ok [GoVal.null], funcs.length) ∧
      agg.Perm ((funcs.map fun op => successValues (runOp fhi op)).flatten) ∧
      (fhi.isParallel = false →
        agg = (funcs.map fun op => successValues (runOp fhi op)).flatten) := by
  have hroute : ∀ e, handler.route e = none := by
    intro e
    unfold GoHandler.route
    split
    · exact hnil e
    · rfl
  have hall : ∀ r : Result GoVal, handledRes handler r = true := by
    intro r
    cases hr : r.err <;> simp [handledRes, hr, hroute]
  cases hp : fhi.isParallel with
  | false =>
    refine ⟨(funcs.map fun op => successValues (runOp fhi op)).flatten,
      ?_, List.Perm.refl _, fun _ => rfl⟩
    rw [Try_seq fhi handler arrival funcs hh hne hp]
    rw [trySeqLoop_all_handled fhi handler funcs [] 0 (fun op _ => hall _)]
    simp
  | true =>
    rw [Try_par fhi handler arrival funcs hh hne hp]
    rw [tryFold_all_handled handler _ [] (fun r _ => hall r)]
    dsimp only
    refine ⟨_, rfl, ?_, fun hx => absurd hx (by simp)⟩
    have h1 : (arrival.filterMap fun i => (funcs[i]?).map (runOp fhi)).Perm
        (funcs.map (runOp fhi)) := by
      have := (hperm hp).filterMap fun i => (funcs[i]?).map (runOp fhi)
      rwa [filterMap_range_get (runOp fhi) funcs] at this
    have h2 := (h1.map successValues).flatten
    rw [List.map_map] at h2
    simpa [Function.comp] using h2

/-- Witness for C6: a successful and a failing operation under the
always-nil handler: both invoked, Success outcome, aggregate a permutation
of (here: equal to) the successful operation's values. -/
theorem handled_handler_never_aborts_witness :
    ∃ agg, Try ⟨0, 0, false⟩ validHandler [] [okOp, failOp] =
        (some agg, Ok [GoVal.null], 2) ∧
      agg.Perm (([okOp, failOp].map
        fun op => successValues (runOp ⟨0, 0, false⟩ op)).flatten) ∧
      ((⟨0, 0, false⟩ : FunctionHandlerImpl).isParallel = false →
        agg = (([okOp, failOp]).map
          fun op => successValues (runOp ⟨0, 0, false⟩ op)).flatten) :=
  handled_handler_never_aborts ⟨0, 0, false⟩ validHandler [] [okOp, failOp]
    (by decide) (fun _ => rfl) (by simp) (by simp)

/-- C8 counterexample: a batch whose first operation wraps a non-function,
run with an always-nil handler: the adapter error is not pre-flight — both
operations are invoked, the adapter failure is routed to the handler, and
the batch outcome is Success, not an immediate Failure. -/
theorem wrap_function_not_preflight_cex :
    Try ⟨0, 0, false⟩ validHandler []
        [⟨WrapFunction badFunc [], false⟩, okOp] =
      (some [GoVal.nat 7], Ok [GoVal.null], 2) ∧
    (Ok [GoVal.null] : Result GoVal).IsOk = true := by
  decide

/-- C8 amended: malformed operation-adapter input (a non-function callable,
or an argument count mismatching the callable's parameter count) is not
pre-flight: the wrapped operation fails at invocation time with the
corresponding adapter message, which surfaces as an ordinary per-operation
failure routed to the error handler — the batch continues if the handler
returns nil and aborts with the handler's error only if it is fatal. -/
theorem wrap_function_error_routed (fhi : FunctionHandlerImpl)
    (handler : GoHandler) (arrival : List Nat) (f : GoFunc)
    (args : List GoVal) (rest : List Op) (msg : String)
    (hmsg : (f.isFunc = false ∧ msg = "no function provided") ∨
      (f.isFunc = true ∧ args.length ≠ f.numIn ∧
        msg = "argument count does not match function's parameter count"))
    (hh : (WrapErrorHandler handler).IsOk = true)
    (hpar : fhi.isParallel = false) (hret : 0 ≤ fhi.retries) :
    (∀ n, WrapFunction f args n = Err msg) ∧
    runOp fhi ⟨WrapFunction f args, false⟩ = Err msg ∧
    (handler.route msg = none →
      Try fhi handler arrival (⟨WrapFunction f args, false⟩ :: rest) =
        trySeqLoop fhi handler rest [] 1) ∧
    (∀ fatal, handler.route msg = some fatal →
      Try fhi handler arrival (⟨WrapFunction f args, false⟩ :: rest) =
        (none, Err fatal, 1)) := by
  have hwf : ∀ n, WrapFunction f args n = Err msg := by
    intro n
    unfold WrapFunction
    rcases hmsg with ⟨h1, h2⟩ | ⟨h1, h2, h3⟩
    · rw [h1, h2]; simp
    · rw [h1, h3]; simp [h2]
  have hrun : runOp fhi ⟨WrapFunction f args, false⟩ = Err msg := by
    rw [runOp_not_fired fhi _ rfl]
    unfold retryFunction
    rw [loopCount_of_nonneg hret]
    have := retryLoop_all_err (WrapFunction f args) (fhi.retries.toNat + 1) 0
      ⟨[], none⟩ (by omega) (by intro j hj; rw [hwf]; rfl)
    rw [this.1, hwf]
  refine ⟨hwf, hrun, ?_, ?_⟩
  · intro hnone
    rw [Try_seq fhi handler arrival _ hh (by simp) hpar]
    rw [trySeqLoop_cons_handled fhi handler _ rest [] 0 msg
      (by rw [hrun]; rfl) hnone]
  · intro fatal hfatal
    rw [Try_seq fhi handler arrival _ hh (by simp) hpar]
    rw [trySeqLoop_cons_fatal fhi handler _ rest [] 0 msg fatal
      (by rw [hrun]; rfl) hfatal]

/-- Witness for C8 amended: wrapping a non-function yields an operation
failing with "no function provided"; under the always-nil handler the batch
continues past it rather than aborting pre-flight. -/
theorem wrap_function_error_routed_witness :
    Try ⟨0, 0, false⟩ validHandler [] [⟨WrapFunction badFunc [], false⟩] =
      (some [], Ok [GoVal.null], 1) :=
  (wrap_function_error_routed ⟨0, 0, false⟩ validHandler [] badFunc [] []
      "no function provided" (Or.inl ⟨rfl, rfl⟩) (by decide) rfl
      (by decide)).2.2.1 (by decide)

/-- C10: setting a negative retry count via `SetRetry` makes
`retryFunction` return the zero-value `Result` (nil values, nil error)
without invoking the operation even once (zero attempts, logs, sleeps), so
with no deadline firing `Try` treats every operation as a success with zero
values: the aggregate is empty and the batch outcome is Success. -/
theorem negative_retry_zero_value (fhi₀ : FunctionHandlerImpl) (n : Int)
    (hn : n < 0) (handler : GoHandler) (arrival : List Nat) (funcs : List Op)
    (hh : (WrapErrorHandler handler).IsOk = true) (hne : funcs ≠ [])
    (hfired : ∀ op ∈ funcs, op.fired = false) :
    (∀ fn, retryFunction (SetRetry fhi₀ n) fn = ⟨⟨[], none⟩, [], 0, 0⟩) ∧
    (∀ op ∈ funcs, runOp (SetRetry fhi₀ n) op = ⟨[], none⟩ ∧
      (runOp (SetRetry fhi₀ n) op).IsOk = true) ∧
    Try (SetRetry fhi₀ n) handler arrival funcs =
      (some [], Ok [GoVal.null], funcs.length) := by
  have hretry : ∀ fn, retryFunction (SetRetry fhi₀ n) fn =
      ⟨⟨[], none⟩, [], 0, 0⟩ := by
    intro fn
    unfold retryFunction
    rw [show (SetRetry fhi₀ n).retries = n from rfl, loopCount_of_neg hn,
      retryLoop_zero]
  have hrun : ∀ op ∈ funcs, runOp (SetRetry fhi₀ n) op = ⟨[], none⟩ := by
    intro op hm
    rw [runOp_not_fired _ op (hfired op hm), hretry]
  refine ⟨hretry, fun op hm => ⟨hrun op hm, by rw [hrun op hm]; rfl⟩, ?_⟩
  cases hp : (SetRetry fhi₀ n).isParallel with
  | false =>
    rw [Try_seq _ handler arrival funcs hh hne hp]
    rw [trySeqLoop_all_handled _ handler funcs [] 0
      (fun op hm => by rw [hrun op hm]; rfl)]
    simp only [List.nil_append, Nat.zero_add]
    refine congrArg₂ _ (congrArg _ ?_) rfl
    apply flatten_of_all_nil
    intro l hl
    simp only [List.mem_map] at hl
    obtain ⟨op, hm, rfl⟩ := hl
    rw [hrun op hm]
    rfl
  | true =>
    rw [Try_par _ handler arrival funcs hh hne hp]
    have hres : ∀ r ∈ arrival.filterMap
        (fun i => (funcs[i]?).map (runOp (SetRetry fhi₀ n))),
        r = (⟨[], none⟩ : Result GoVal) := by
      intro r hr
      simp only [List.mem_filterMap] at hr
      obtain ⟨i, _, hi⟩ := hr
      cases hfi : funcs[i]? with
      | none => rw [hfi] at hi; simp at hi
      | some op =>
        rw [hfi] at hi
        simp only [Option.map_some', Option.some_inj] at hi
        rw [← hi]
        exact hrun op (List.getElem?_mem hfi)
    rw [tryFold_all_handled handler _ [] (fun r hr => by rw [hres r hr]; rfl)]
    dsimp only
    simp only [List.nil_append]
    refine congrArg₂ _ (congrArg _ ?_) rfl
    apply flatten_of_all_nil
    intro l hl
    simp only [List.mem_map] at hl
    obtain ⟨r, hrm, rfl⟩ := hl
    rw [hres r hrm]
    rfl

/-- Witness for C10: `SetRetry` to -1 with one immediately-successful
operation: the operation is never invoked, yet the batch reports Success
with an empty aggregate. -/
theorem negative_retry_zero_value_witness :
    Try (SetRetry ⟨0, 0, false⟩ (-1)) validHandler [] [okOp] =
      (some [], Ok [GoVal.null], 1) :=
  (negative_retry_zero_value ⟨0, 0, false⟩ (-1) (by decide) validHandler []
      [okOp] (by decide) (by simp) (by decide)).2.2

end EasyHandler
